import Mathlib

/-
Verification development for the calendar-object indexing and attachment
storage layer (txdav/caldav/datastore/sql.py).

The embedding models time points as a wall-clock value (seconds since the
Unix epoch, read naively) together with an optional attached time-zone
offset; the Python `datetime.replace(tzinfo=utc)` call keeps the wall
value and sets the offset to UTC (offset 0), and `tzinfo is None` is the
floating-time test.  Database tables are lists of row structures and row
identifiers are drawn from a single monotone counter, mirroring the SQL
sequences that `returning RESOURCE_ID` / `returning INSTANCE_ID` consume.
External collaborator capabilities (the recurrence-expansion library, the
MD5 implementation of hashlib, normalizeForIndex, content-type rendering,
timestamp parsing) are supplied as function-valued parameters in `Env` or
on `Component`, since they live outside the repository source.
-/

namespace CalDAV

/-- Wall-clock time point: naive seconds-since-epoch reading plus an
optional attached time-zone offset (`some 0` is UTC, `none` is floating). -/
structure DT where
  wall : Int
  tz : Option Int
deriving DecidableEq, Repr

/-- Model of `datetime.replace(tzinfo=utc)`: the wall-clock fields are kept
unchanged and the attached zone becomes UTC. -/
def DT.replaceUtc (d : DT) : DT :=
  { d with tz := some 0 }

/-- Duration into the future through which recurrences are expanded in the
index by default (365 days, in seconds). -/
def default_future_expansion_duration : Int := 365 * 1 * 86400

/-- Maximum duration into the future through which recurrences are expanded
in the index (5 * 365 days, in seconds). -/
def maximum_future_expansion_duration : Int := 365 * 5 * 86400

/-- Mapping from iCalendar free-busy type names to compact index codes
(the `icalfbtype_to_indexfbtype` dictionary). -/
def icalfbtype_to_indexfbtype (s : String) : Option Nat :=
  if s = "UNKNOWN" then some 0
  else if s = "FREE" then some 1
  else if s = "BUSY" then some 2
  else if s = "BUSY-UNAVAILABLE" then some 3
  else if s = "BUSY-TENTATIVE" then some 4
  else none

/-- Far-future placeholder instant `datetime.datetime(2100, 1, 1, 0, 0, 0,
tzinfo=utc)`: 4102444800 seconds after the Unix epoch. -/
def farFuture2100 : DT := { wall := 4102444800, tz := some 0 }

/-- End of the synthetic sentinel interval, `datetime.datetime(2100, 1, 1,
1, 0, 0, tzinfo=utc)`: one hour after `farFuture2100`. -/
def sentinelEnd2100 : DT := { wall := 4102444800 + 3600, tz := some 0 }

/-- Errors raised by `updateDatabase`: `IndexedSearchException` for a
horizon beyond the maximum cap, and `InvalidOverriddenInstanceError`
propagated from the expansion library. -/
inductive UErr where
  | indexedSearch
  | invalidOverriddenInstance
deriving DecidableEq, Repr

/-- One materialized occurrence as returned by the expansion capability:
start and end time points, the computed free-busy type of the instance
subcomponent (`getFBType`), the value of its TRANSP property
(`propertyValue TRANSP`), and the recurrence id. -/
structure VInstance where
  start : DT
  end_ : DT
  getFBType : String
  transpValue : Option String
  rid : Option DT
deriving DecidableEq, Repr

/-- Result of `expandTimeRanges`: the materialized instances in iteration
order, and the `limit` attribute (the expansion bound when present). -/
structure InstanceList where
  instances : List VInstance
  limit : Option DT
deriving DecidableEq, Repr

/-- Parsed calendar component capability as consumed by `updateDatabase`:
recurrence shape queries, the expansion entry point (horizon and
ignoreInvalidInstances flag; failure is `InvalidOverriddenInstanceError`),
the canonical text, derived scalar accessors, and the per-user
transparency query keyed by an optional recurrence id. -/
structure Component where
  hasMaster : Bool
  isRecurring : Bool
  isRecurringUnbounded : Bool
  expandTimeRanges : DT → Bool → Except Unit InstanceList
  text : String
  resourceUID : String
  resourceType : String
  getOrganizer : Option String
  perUserTransparency : Option DT → List (String × Bool)

/-- Row of the CALENDAR_OBJECT table. -/
structure CalendarObjectRow where
  resourceId : Nat
  calendarResourceId : Nat
  resourceName : String
  icalendarText : String
  icalendarUID : String
  icalendarType : String
  attachmentsMode : Nat
  organizer : String
  recurranceMax : Option DT
  modified : Int
deriving DecidableEq, Repr

/-- Row of the TIME_RANGE table. -/
structure TimeRangeRow where
  instanceId : Nat
  calendarResourceId : Nat
  calendarObjectResourceId : Nat
  floating : Bool
  startDate : DT
  endDate : DT
  fbtype : Nat
  transparent : Bool
deriving DecidableEq, Repr

/-- Row of the TRANSPARENCY table. -/
structure TransparencyRow where
  timeRangeInstanceId : Nat
  userId : String
  transparent : Bool
deriving DecidableEq, Repr

/-- Row of the ATTACHMENT table.  CREATED and MODIFIED are kept as the
textual timestamps the SQL layer returns (`_populate` parses them). -/
structure AttachmentRow where
  calendarObjectResourceId : Nat
  contentType : String
  size : Nat
  md5 : String
  path : String
  created : String
  modified : String
deriving DecidableEq, Repr

/-- Database state: the four tables of the core plus the identifier
counter standing for the SQL sequences. -/
structure DB where
  calendarObjects : List CalendarObjectRow
  timeRanges : List TimeRangeRow
  transparency : List TransparencyRow
  attachments : List AttachmentRow
  nextId : Nat
deriving DecidableEq, Repr

/-- External collaborator capabilities: the current date (seconds at
midnight today) and timestamp, `normalizeForIndex` from the date
operations library, the MD5 hex digest of a byte sequence (hashlib),
`generateContentType` (MIME rendering), and textual timestamp parsing
(`datetimeMktime` composed with `strptime`). -/
structure Env where
  today : Int
  now : Int
  nowText : String
  normalizeForIndex : DT → DT
  md5hex : List Nat → String
  genContentType : String → String
  parseTimestamp : String → Int

/-- Modelled from the spec: the `_ATTACHMENTS_MODE_WRITE` constant comes
from txdav.common.datastore.sql_tables, which is not part of the source
under study; its concrete value is irrelevant to every claim. -/
def ATTACHMENTS_MODE_WRITE : Nat := 1

/-- Horizon selection of `updateDatabase`: when there is no master
component, or the component is neither recurring nor unboundedly
recurring, the horizon is the fixed far-future instant; otherwise the
caller-supplied horizon when given, else today plus the default expansion
duration, failing with `IndexedSearchException` when the result exceeds
today plus the maximum expansion duration (the datetime-versus-date
comparison of the source is modelled on the wall value). -/
def chooseExpand (today : Int) (component : Component)
    (expand_until : Option DT) : Except UErr DT :=
  if !component.hasMaster ||
      (!component.isRecurring && !component.isRecurringUnbounded) then
    Except.ok farFuture2100
  else
    let expand := match expand_until with
      | some e => e
      | none => { wall := today + default_future_expansion_duration, tz := none }
    if expand.wall > today + maximum_future_expansion_duration then
      Except.error UErr.indexedSearch
    else
      Except.ok expand

/-- Expansion step of `updateDatabase`: call `expandTimeRanges` with
`ignoreInvalidInstances := reCreate`; on `InvalidOverriddenInstanceError`,
retry with `ignoreInvalidInstances := True` when the transaction is
migrating, otherwise re-raise. -/
def expandCatch (migrating : Bool) (component : Component) (expand : DT)
    (reCreate : Bool) : Except UErr InstanceList :=
  match component.expandTimeRanges expand reCreate with
  | Except.ok instances => Except.ok instances
  | Except.error _ =>
    if migrating then
      match component.expandTimeRanges expand true with
      | Except.ok instances => Except.ok instances
      | Except.error _ => Except.error UErr.invalidOverriddenInstance
    else
      Except.error UErr.invalidOverriddenInstance

/-- Construction of one TIME_RANGE row from an instance, following the
loop body: start and end get UTC attached by `replace`, the floating flag
tests the original start for a missing zone, the free-busy code is looked
up with the FREE code as dictionary default, and the transparency flag
compares the TRANSP property value against TRANSPARENT. -/
def mkTimeRangeRow (calendarRID resourceID instanceId : Nat)
    (i : VInstance) : TimeRangeRow :=
  { instanceId := instanceId
  , calendarResourceId := calendarRID
  , calendarObjectResourceId := resourceID
  , floating := i.start.tz.isNone
  , startDate := i.start.replaceUtc
  , endDate := i.end_.replaceUtc
  , fbtype := (icalfbtype_to_indexfbtype i.getFBType).getD
      ((icalfbtype_to_indexfbtype "FREE").getD 0)
  , transparent := i.transpValue = some "TRANSPARENT"
  }

/-- Insertion of the TRANSPARENCY rows of one instance, one insert
statement per (user, transparency) pair. -/
def insertTransparencies (instanceId : Nat) :
    List (String × Bool) → DB → DB
  | [], db => db
  | (useruid, transp) :: rest, db =>
    insertTransparencies instanceId rest
      { db with transparency :=
          db.transparency ++ [⟨instanceId, useruid, transp⟩] }

/-- Body of the per-instance loop of `updateDatabase`: insert the
TIME_RANGE row (returning a fresh INSTANCE_ID), then insert one
TRANSPARENCY row per pair returned by `perUserTransparency` at the
instance's recurrence id. -/
def writeOne (component : Component) (calendarRID resourceID : Nat)
    (i : VInstance) (db : DB) : DB :=
  let instanceId := db.nextId
  let db := { db with
    nextId := db.nextId + 1
    timeRanges := db.timeRanges ++ [mkTimeRangeRow calendarRID resourceID instanceId i] }
  insertTransparencies instanceId (component.perUserTransparency i.rid) db

/-- Per-instance loop of `updateDatabase` over the expansion result. -/
def writeInstances (component : Component) (calendarRID resourceID : Nat) :
    List VInstance → DB → DB
  | [], db => db
  | i :: rest, db =>
    writeInstances component calendarRID resourceID rest
      (writeOne component calendarRID resourceID i db)

/-- Sentinel insertion for unbounded recurrences: one TIME_RANGE row fixed
at the far-future placeholder interval, non-floating, free-busy code
UNKNOWN, transparency true, followed by the TRANSPARENCY rows returned by
`perUserTransparency` with no recurrence id. -/
def writeSentinel (component : Component) (calendarRID resourceID : Nat)
    (db : DB) : DB :=
  let instanceId := db.nextId
  let db := { db with
    nextId := db.nextId + 1
    timeRanges := db.timeRanges ++
      [{ instanceId := instanceId
       , calendarResourceId := calendarRID
       , calendarObjectResourceId := resourceID
       , floating := false
       , startDate := farFuture2100
       , endDate := sentinelEnd2100
       , fbtype := (icalfbtype_to_indexfbtype "UNKNOWN").getD 0
       , transparent := true }] }
  insertTransparencies instanceId (component.perUserTransparency none) db

/-- Modelled from the spec: deletion of the TRANSPARENCY children of a
TIME_RANGE row on delete is a foreign-key cascade of the schema, which is
not part of the source under study (spec section 3: destroyed with its
instance).  The TIME_RANGE delete statement itself is in the source. -/
def deleteTimeRanges (resourceID : Nat) (db : DB) : DB :=
  let removed := db.timeRanges.filter
    (fun r => r.calendarObjectResourceId == resourceID)
  { db with
    timeRanges := db.timeRanges.filter
      (fun r => !(r.calendarObjectResourceId == resourceID))
    transparency := db.transparency.filter
      (fun t => !(removed.any (fun r => r.instanceId == t.timeRangeInstanceId))) }

/-- Persistence phase of `updateDatabase` after expansion succeeded: write
or rewrite the CALENDAR_OBJECT record (insert allocates the resource id;
update overwrites in place, stamps MODIFIED, and wipes the existing
TIME_RANGE rows), then run the per-instance loop, then append the
sentinel when the component recurs unboundedly.  Returns the new state
and the object's resource id. -/
def afterExpand (env : Env) (calendarRID : Nat) (name : String)
    (component : Component) (instances : InstanceList) (inserting : Bool)
    (resourceID : Nat) (db : DB) : DB × Nat :=
  let componentText := component.text
  let organizer := component.getOrganizer.getD ""
  let recurranceMax := instances.limit.map env.normalizeForIndex
  let (db, rid) :=
    if inserting then
      let rid := db.nextId
      ({ db with
          nextId := db.nextId + 1
          calendarObjects := db.calendarObjects ++
            [{ resourceId := rid
             , calendarResourceId := calendarRID
             , resourceName := name
             , icalendarText := componentText
             , icalendarUID := component.resourceUID
             , icalendarType := component.resourceType
             , attachmentsMode := ATTACHMENTS_MODE_WRITE
             , organizer := organizer
             , recurranceMax := recurranceMax
             , modified := env.now }] }, rid)
    else
      let upd := fun (r : CalendarObjectRow) =>
        if r.resourceId == resourceID then
          { r with
            icalendarText := componentText
            icalendarUID := component.resourceUID
            icalendarType := component.resourceType
            attachmentsMode := ATTACHMENTS_MODE_WRITE
            organizer := organizer
            recurranceMax := recurranceMax
            modified := env.now }
        else r
      let db := { db with calendarObjects := db.calendarObjects.map upd }
      (deleteTimeRanges resourceID db, resourceID)
  let db := writeInstances component calendarRID rid instances.instances db
  let db :=
    if component.isRecurringUnbounded then
      writeSentinel component calendarRID rid db
    else db
  (db, rid)

/-- Full `updateDatabase`: choose the expansion horizon, expand (with the
recovery retry under migration), then persist the record and rebuild the
index rows.  Both raise points precede every SQL statement of the method,
so an error leaves the database untouched. -/
def updateDatabase (env : Env) (migrating : Bool) (calendarRID : Nat)
    (name : String) (component : Component) (expand_until : Option DT)
    (reCreate : Bool) (inserting : Bool) (resourceID : Nat) (db : DB) :
    Except UErr (DB × Nat) :=
  match chooseExpand env.today component expand_until with
  | Except.error e => Except.error e
  | Except.ok expand =>
    match expandCatch migrating component expand reCreate with
    | Except.error e => Except.error e
    | Except.ok instances =>
      Except.ok (afterExpand env calendarRID name component instances
        inserting resourceID db)

/-- Filesystem model for attachment bytes: an association of path-segment
lists to byte contents (bytes are naturals, one per octet). -/
def FS := List (List String × List Nat)

/-- Combined store state for the attachment operations: the SQL tables and
the attachment filesystem. -/
structure Store where
  db : DB
  fs : FS

/-- Model of `FilePath.setContent`: replace the content at a path, or
append the file when absent. -/
def setContent : FS → List String → List Nat → FS
  | [], p, b => [(p, b)]
  | (q, c) :: rest, p, b =>
    if q = p then (p, b) :: rest else (q, c) :: setContent rest p b

/-- Model of `FilePath.getContent`: the content at a path, when present. -/
def getContent (fs : FS) (p : List String) : Option (List Nat) :=
  fs.lookup p

/-- Attachment path root of a calendar object (`_attachmentPathRoot`): the
attachment root, two two-character shard directories from the owner home
name, the home name, then the event UID. -/
def attachmentPathRoot (attachmentsRoot homeName uid : String) : List String :=
  [attachmentsRoot, homeName.take 2, (homeName.drop 2).take 2, homeName, uid]

/-- Physical path of one attachment (`Attachment._path`): the path root
extended with the attachment's name. -/
def attachmentPath (attachmentsRoot homeName uid name : String) : List String :=
  attachmentPathRoot attachmentsRoot homeName uid ++ [name]

/-- Write sink state (`AttachmentStorageTransport`): the attachment name
and declared content type, the in-memory byte buffer, and the byte
sequence fed to the incremental MD5 object so far (hashlib's digest is a
function of exactly the bytes fed, so the fed sequence is the hash
state). -/
structure AttachmentStorageTransport where
  attachmentName : String
  contentType : String
  buf : List Nat
  hashFed : List Nat
deriving DecidableEq, Repr

/-- Model of `AttachmentStorageTransport.write`: append the data to the
buffer and feed it to the digest. -/
def transportWrite (t : AttachmentStorageTransport) (data : List Nat) :
    AttachmentStorageTransport :=
  { t with buf := t.buf ++ data, hashFed := t.hashFed ++ data }

/-- Row effect of the close-time metadata update statement: the SET clause
applied to every ATTACHMENT row whose PATH equals the sink's attachment
name. -/
def closeUpd (env : Env) (t : AttachmentStorageTransport)
    (r : AttachmentRow) : AttachmentRow :=
  if r.path = t.attachmentName then
    { r with
      contentType := env.genContentType t.contentType
      size := t.buf.length
      md5 := env.md5hex t.hashFed
      modified := env.nowText }
  else r

/-- Model of `AttachmentStorageTransport.loseConnection`: persist the
buffered bytes at the derived path, then update the ATTACHMENT metadata
row (content type, size, digest, modified time) in one statement keyed by
PATH alone. -/
def loseConnection (env : Env) (attachmentsRoot homeName uid : String)
    (t : AttachmentStorageTransport) (s : Store) : Store :=
  let fs := setContent s.fs
    (attachmentPath attachmentsRoot homeName uid t.attachmentName) t.buf
  { db := { s.db with attachments := s.db.attachments.map (closeUpd env t) }
  , fs := fs }

/-- Model of `CalendarObject.createAttachmentWithName`: ensure the path
root directories exist (errors ignored; directories are not tracked in
the filesystem model), insert the ATTACHMENT metadata row immediately
with size 0 and empty digest (CREATED and MODIFIED fall to the schema
column defaults, which are outside the source under study), and hand back
a fresh write sink. -/
def createAttachmentWithName (env : Env) (resourceID : Nat)
    (name contentType : String) (s : Store) :
    Store × AttachmentStorageTransport :=
  let db := { s.db with attachments := s.db.attachments ++
    [{ calendarObjectResourceId := resourceID
     , contentType := env.genContentType contentType
     , size := 0
     , md5 := ""
     , path := name
     , created := env.nowText
     , modified := env.nowText }] }
  ({ s with db := db },
   { attachmentName := name, contentType := contentType, buf := [], hashFed := [] })

/-- Model of `CalendarObject.removeAttachmentWithName`: delete the
metadata row keyed by owning object id and path (the physical byte
removal is scheduled for after commit and not part of the transaction
state modelled here). -/
def removeAttachmentWithName (resourceID : Nat) (name : String) (db : DB) : DB :=
  let keep := fun (r : AttachmentRow) =>
    !(r.calendarObjectResourceId == resourceID && r.path == name)
  { db with attachments := db.attachments.filter keep }

/-- Attributes `_populate` copies out of the selected ATTACHMENT row:
content type, size, digest, and the parsed creation and modification
timestamps. -/
structure PopulatedAttachment where
  contentType : String
  size : Nat
  md5 : String
  created : Int
  modified : Int
deriving DecidableEq, Repr

/-- Attribute extraction of `Attachment._populate` from the first selected
row. -/
def populateRow (env : Env) (r : AttachmentRow) : PopulatedAttachment :=
  { contentType := r.contentType
  , size := r.size
  , md5 := r.md5
  , created := env.parseTimestamp r.created
  , modified := env.parseTimestamp r.modified }

/-- Model of `CalendarObject.attachmentWithName` backed by
`Attachment._populate`: select the ATTACHMENT rows whose PATH equals the
name (the owning object's resource id, `selfResourceID`, is not part of
the query), return None when no row matches, else the attributes of the
first row. -/
def attachmentWithName (env : Env) (selfResourceID : Nat) (db : DB)
    (name : String) : Option PopulatedAttachment :=
  match db.attachments.filter (fun r => r.path == name) with
  | [] => none
  | r :: _ => some (populateRow env r)

/-- Model of `Attachment.retrieve`: stream the physical bytes at the
attachment's path (absence is an Option, where the source would fail on a
missing file). -/
def retrieve (attachmentsRoot homeName uid name : String) (s : Store) :
    Option (List Nat) :=
  getContent s.fs (attachmentPath attachmentsRoot homeName uid name)

/-- Sequence of `write` calls on a sink, in order. -/
def writeChunks : AttachmentStorageTransport → List (List Nat) →
    AttachmentStorageTransport
  | t, [] => t
  | t, d :: rest => writeChunks (transportWrite t d) rest

/-- Content of a TIME_RANGE row with the generated row identifier erased,
for comparisons that ignore identifiers. -/
def timeRangeShape (r : TimeRangeRow) :
    Nat × Nat × Bool × DT × DT × Nat × Bool :=
  (r.calendarResourceId, r.calendarObjectResourceId, r.floating,
   r.startDate, r.endDate, r.fbtype, r.transparent)

/-- Declarative form of the TIME_RANGE rows the per-instance loop inserts
for a list of instances when the identifier counter starts at `n`. -/
def instanceRows (calendarRID resourceID : Nat) :
    List VInstance → Nat → List TimeRangeRow
  | [], _ => []
  | i :: rest, n =>
    mkTimeRangeRow calendarRID resourceID n i ::
      instanceRows calendarRID resourceID rest (n + 1)

/-- Declarative form of the TRANSPARENCY rows the per-instance loop
inserts for a list of instances when the identifier counter starts at
`n`. -/
def instanceTranspRows (component : Component) :
    List VInstance → Nat → List TransparencyRow
  | [], _ => []
  | i :: rest, n =>
    (component.perUserTransparency i.rid).map (fun p => ⟨n, p.1, p.2⟩) ++
      instanceTranspRows component rest (n + 1)

/-- Sentinel TIME_RANGE row for an unbounded recurrence, with a given row
identifier. -/
def sentinelRow (calendarRID resourceID instanceId : Nat) : TimeRangeRow :=
  { instanceId := instanceId
  , calendarResourceId := calendarRID
  , calendarObjectResourceId := resourceID
  , floating := false
  , startDate := farFuture2100
  , endDate := sentinelEnd2100
  , fbtype := 0
  , transparent := true }

/-- CALENDAR_OBJECT row that the insert branch of `afterExpand` creates. -/
def insertedRecord (env : Env) (calendarRID : Nat) (name : String)
    (component : Component) (instances : InstanceList) (rid : Nat) :
    CalendarObjectRow :=
  { resourceId := rid
  , calendarResourceId := calendarRID
  , resourceName := name
  , icalendarText := component.text
  , icalendarUID := component.resourceUID
  , icalendarType := component.resourceType
  , attachmentsMode := ATTACHMENTS_MODE_WRITE
  , organizer := component.getOrganizer.getD ""
  , recurranceMax := instances.limit.map env.normalizeForIndex
  , modified := env.now }

/-- Row transformation that the update branch of `afterExpand` applies to
every CALENDAR_OBJECT row. -/
def updatedRecord (env : Env) (component : Component)
    (instances : InstanceList) (resourceID : Nat) (r : CalendarObjectRow) :
    CalendarObjectRow :=
  if r.resourceId == resourceID then
    { r with
      icalendarText := component.text
      icalendarUID := component.resourceUID
      icalendarType := component.resourceType
      attachmentsMode := ATTACHMENTS_MODE_WRITE
      organizer := component.getOrganizer.getD ""
      recurranceMax := instances.limit.map env.normalizeForIndex
      modified := env.now }
  else r

/-- Concrete environment used to evaluate the development on sample
inputs. -/
def wEnv : Env :=
  { today := 1000
  , now := 5
  , nowText := "2010-06-01 10:00:00.000000"
  , normalizeForIndex := fun d => { d with tz := none }
  , md5hex := fun l => toString l
  , genContentType := fun s => s
  , parseTimestamp := fun _ => 77 }

/-- Sample expanded instance. -/
def wInst : VInstance :=
  { start := { wall := 100, tz := some 0 }
  , end_ := { wall := 200, tz := some 0 }
  , getFBType := "BUSY"
  , transpValue := none
  , rid := some { wall := 100, tz := some 0 } }

/-- Sample unboundedly recurring component with a master. -/
def wCompU : Component :=
  { hasMaster := true
  , isRecurring := true
  , isRecurringUnbounded := true
  , expandTimeRanges := fun _ _ =>
      Except.ok { instances := [wInst], limit := none }
  , text := "BEGIN:VCALENDAR"
  , resourceUID := "uid1"
  , resourceType := "VEVENT"
  , getOrganizer := none
  , perUserTransparency := fun _ => [("user01", true)] }

/-- Sample bounded recurring component with a master. -/
def wCompB : Component :=
  { wCompU with
    isRecurringUnbounded := false
    expandTimeRanges := fun _ _ =>
      Except.ok { instances := [wInst], limit := some { wall := 200, tz := some 0 } } }

/-- Sample non-recurring component. -/
def wCompN : Component :=
  { wCompU with
    isRecurring := false
    isRecurringUnbounded := false
    expandTimeRanges := fun _ _ =>
      Except.ok { instances := [wInst], limit := none } }

/-- Sample component whose expansion fails unless invalid instances are
ignored. -/
def wCompF : Component :=
  { wCompU with
    isRecurringUnbounded := false
    expandTimeRanges := fun _ ignoreInvalid =>
      if ignoreInvalid then
        Except.ok { instances := [wInst], limit := none }
      else Except.error () }

/-- Empty database. -/
def wDb : DB :=
  { calendarObjects := [], timeRanges := [], transparency := []
  , attachments := [], nextId := 0 }

/-- Empty store. -/
def wStore : Store := { db := wDb, fs := [] }

/-- Database holding only the given ATTACHMENT rows. -/
def dbWithAttachments (rows : List AttachmentRow) : DB :=
  { calendarObjects := [], timeRanges := [], transparency := []
  , attachments := rows, nextId := 0 }

/-- TIME_RANGE rows of a database that belong to one calendar object. -/
def objectTimeRanges (db : DB) (resourceID : Nat) : List TimeRangeRow :=
  db.timeRanges.filter (fun r => r.calendarObjectResourceId == resourceID)

/-- TIME_RANGE rows left after the update branch wipes one object's
rows. -/
def remainingTimeRanges (resourceID : Nat) (db : DB) : List TimeRangeRow :=
  db.timeRanges.filter (fun r => !(r.calendarObjectResourceId == resourceID))

/-- TRANSPARENCY rows left after the cascade that accompanies the wipe of
one object's TIME_RANGE rows. -/
def remainingTransparency (resourceID : Nat) (db : DB) : List TransparencyRow :=
  db.transparency.filter
    (fun t => !((db.timeRanges.filter
        (fun r => r.calendarObjectResourceId == resourceID)).any
      (fun r => r.instanceId == t.timeRangeInstanceId)))

/-- Result of the sample insert of the unbounded component. -/
def wC1pair : DB × Nat :=
  afterExpand wEnv 3 "r1" wCompU { instances := [wInst], limit := none }
    true 0 wDb

/-- Result of the sample insert of the bounded component. -/
def wC9pair : DB × Nat :=
  afterExpand wEnv 3 "r1" wCompB
    { instances := [wInst], limit := some { wall := 200, tz := some 0 } }
    true 0 wDb

/-- Result of re-running the sample bounded component as an update on top
of its own insert. -/
def wC3pair : DB × Nat :=
  afterExpand wEnv 3 "r1" wCompB
    { instances := [wInst], limit := some { wall := 200, tz := some 0 } }
    false wC9pair.2 wC9pair.1

/-- Effect of inserting the TRANSPARENCY rows of one instance. -/
theorem insertTransparencies_spec (instanceId : Nat)
    (l : List (String × Bool)) (db : DB) :
    insertTransparencies instanceId l db =
      { db with transparency :=
          db.transparency ++ l.map (fun p => ⟨instanceId, p.1, p.2⟩) } := by
  induction l generalizing db with
  | nil => simp [insertTransparencies]
  | cons p rest ih =>
    cases p with
    | mk u t => simp [insertTransparencies, ih]

/-- Effect of one iteration of the per-instance loop. -/
theorem writeOne_spec (component : Component) (calendarRID resourceID : Nat)
    (i : VInstance) (db : DB) :
    writeOne component calendarRID resourceID i db =
      { db with
        nextId := db.nextId + 1
        timeRanges := db.timeRanges ++
          [mkTimeRangeRow calendarRID resourceID db.nextId i]
        transparency := db.transparency ++
          (component.perUserTransparency i.rid).map
            (fun p => ⟨db.nextId, p.1, p.2⟩) } := by
  simp [writeOne, insertTransparencies_spec]

/-- Effect of the whole per-instance loop. -/
theorem writeInstances_spec (component : Component)
    (calendarRID resourceID : Nat) (l : List VInstance) (db : DB) :
    writeInstances component calendarRID resourceID l db =
      { db with
        nextId := db.nextId + l.length
        timeRanges := db.timeRanges ++
          instanceRows calendarRID resourceID l db.nextId
        transparency := db.transparency ++
          instanceTranspRows component l db.nextId } := by
  induction l generalizing db with
  | nil => simp [writeInstances, instanceRows, instanceTranspRows]
  | cons i rest ih =>
    simp only [writeInstances, writeOne_spec, ih, instanceRows,
      instanceTranspRows, List.length_cons]
    simp [List.append_assoc, Nat.add_assoc, Nat.add_comm, Nat.add_left_comm]

/-- Effect of the sentinel insertion. -/
theorem writeSentinel_spec (component : Component)
    (calendarRID resourceID : Nat) (db : DB) :
    writeSentinel component calendarRID resourceID db =
      { db with
        nextId := db.nextId + 1
        timeRanges := db.timeRanges ++
          [sentinelRow calendarRID resourceID db.nextId]
        transparency := db.transparency ++
          (component.perUserTransparency none).map
            (fun p => ⟨db.nextId, p.1, p.2⟩) } := by
  simp [writeSentinel, insertTransparencies_spec, sentinelRow,
    icalfbtype_to_indexfbtype]

/-- Effect of the persistence phase on insert for an unboundedly recurring
component. -/
theorem afterExpand_insert_unbounded (env : Env) (calendarRID : Nat)
    (name : String) (c : Component) (il : InstanceList) (resourceID : Nat)
    (db : DB) (hu : c.isRecurringUnbounded = true) :
    afterExpand env calendarRID name c il true resourceID db =
      ({ db with
         nextId := db.nextId + 1 + il.instances.length + 1
         calendarObjects := db.calendarObjects ++
           [insertedRecord env calendarRID name c il db.nextId]
         timeRanges := db.timeRanges ++
           instanceRows calendarRID db.nextId il.instances (db.nextId + 1) ++
           [sentinelRow calendarRID db.nextId (db.nextId + 1 + il.instances.length)]
         transparency := db.transparency ++
           instanceTranspRows c il.instances (db.nextId + 1) ++
           (c.perUserTransparency none).map
             (fun p => ⟨db.nextId + 1 + il.instances.length, p.1, p.2⟩) },
       db.nextId) := by
  simp [afterExpand, hu, writeInstances_spec, writeSentinel_spec,
    insertedRecord, List.append_assoc]

/-- Effect of the persistence phase on insert for a component that does
not recur unboundedly. -/
theorem afterExpand_insert_bounded (env : Env) (calendarRID : Nat)
    (name : String) (c : Component) (il : InstanceList) (resourceID : Nat)
    (db : DB) (hu : c.isRecurringUnbounded = false) :
    afterExpand env calendarRID name c il true resourceID db =
      ({ db with
         nextId := db.nextId + 1 + il.instances.length
         calendarObjects := db.calendarObjects ++
           [insertedRecord env calendarRID name c il db.nextId]
         timeRanges := db.timeRanges ++
           instanceRows calendarRID db.nextId il.instances (db.nextId + 1)
         transparency := db.transparency ++
           instanceTranspRows c il.instances (db.nextId + 1) },
       db.nextId) := by
  simp [afterExpand, hu, writeInstances_spec, insertedRecord,
    List.append_assoc]

/-- Effect of the persistence phase on update for an unboundedly recurring
component. -/
theorem afterExpand_update_unbounded (env : Env) (calendarRID : Nat)
    (name : String) (c : Component) (il : InstanceList) (resourceID : Nat)
    (db : DB) (hu : c.isRecurringUnbounded = true) :
    afterExpand env calendarRID name c il false resourceID db =
      ({ db with
         nextId := db.nextId + il.instances.length + 1
         calendarObjects :=
           db.calendarObjects.map (updatedRecord env c il resourceID)
         timeRanges :=
           db.timeRanges.filter
             (fun r => !(r.calendarObjectResourceId == resourceID)) ++
           instanceRows calendarRID resourceID il.instances db.nextId ++
           [sentinelRow calendarRID resourceID (db.nextId + il.instances.length)]
         transparency :=
           db.transparency.filter
             (fun t => !((db.timeRanges.filter
                 (fun r => r.calendarObjectResourceId == resourceID)).any
               (fun r => r.instanceId == t.timeRangeInstanceId))) ++
           instanceTranspRows c il.instances db.nextId ++
           (c.perUserTransparency none).map
             (fun p => ⟨db.nextId + il.instances.length, p.1, p.2⟩) },
       resourceID) := by
  simp [afterExpand, hu, writeInstances_spec, writeSentinel_spec,
    deleteTimeRanges, updatedRecord, List.append_assoc]

/-- Effect of the persistence phase on update for a component that does
not recur unboundedly. -/
theorem afterExpand_update_bounded (env : Env) (calendarRID : Nat)
    (name : String) (c : Component) (il : InstanceList) (resourceID : Nat)
    (db : DB) (hu : c.isRecurringUnbounded = false) :
    afterExpand env calendarRID name c il false resourceID db =
      ({ db with
         nextId := db.nextId + il.instances.length
         calendarObjects :=
           db.calendarObjects.map (updatedRecord env c il resourceID)
         timeRanges :=
           db.timeRanges.filter
             (fun r => !(r.calendarObjectResourceId == resourceID)) ++
           instanceRows calendarRID resourceID il.instances db.nextId
         transparency :=
           db.transparency.filter
             (fun t => !((db.timeRanges.filter
                 (fun r => r.calendarObjectResourceId == resourceID)).any
               (fun r => r.instanceId == t.timeRangeInstanceId))) ++
           instanceTranspRows c il.instances db.nextId },
       resourceID) := by
  simp [afterExpand, hu, writeInstances_spec, deleteTimeRanges,
    updatedRecord, List.append_assoc]

/-- Evaluation of the horizon choice when a master exists and the
component recurs. -/
theorem chooseExpand_recurring (today : Int) (c : Component) (eu : Option DT)
    (hM : c.hasMaster = true)
    (hR : c.isRecurring = true ∨ c.isRecurringUnbounded = true) :
    chooseExpand today c eu =
      (let expand := match eu with
        | some e => e
        | none => { wall := today + default_future_expansion_duration, tz := none }
       if expand.wall > today + maximum_future_expansion_duration then
         Except.error UErr.indexedSearch
       else Except.ok expand) := by
  rcases hR with h | h <;> simp [chooseExpand, hM, h]

/-- Expansion never reports the horizon error. -/
theorem expandCatch_ne_indexedSearch (migrating : Bool) (c : Component)
    (e : DT) (reCreate : Bool) (er : UErr)
    (h : expandCatch migrating c e reCreate = Except.error er) :
    er = UErr.invalidOverriddenInstance := by
  unfold expandCatch at h
  cases h1 : c.expandTimeRanges e reCreate with
  | ok il => rw [h1] at h; cases h
  | error u =>
    rw [h1] at h
    cases migrating with
    | false => simp at h; exact h.symm
    | true =>
      simp at h
      cases h2 : c.expandTimeRanges e true with
      | ok il => rw [h2] at h; cases h
      | error u2 => rw [h2] at h; simp at h; exact h.symm

/-- Success decomposition of `updateDatabase`. -/
theorem updateDatabase_ok (env : Env) (migrating : Bool) (calendarRID : Nat)
    (name : String) (c : Component) (eu : Option DT)
    (reCreate inserting : Bool) (resourceID : Nat) (db : DB) (e : DT)
    (il : InstanceList)
    (hE : chooseExpand env.today c eu = Except.ok e)
    (hI : expandCatch migrating c e reCreate = Except.ok il) :
    updateDatabase env migrating calendarRID name c eu reCreate inserting
        resourceID db =
      Except.ok (afterExpand env calendarRID name c il inserting resourceID db) := by
  simp [updateDatabase, hE, hI]

/-- C2: for every recurring component with a master definition,
`updateDatabase` uses the caller-supplied horizon when given and today
plus one year otherwise; a horizon of exactly today plus five years
succeeds, and any horizon strictly beyond that bound makes the operation
fail with the indexing-horizon-exceeded error, the failure carrying no
written state. -/
theorem c2_horizon_policy (env : Env) (c : Component)
    (hM : c.hasMaster = true)
    (hR : c.isRecurring = true ∨ c.isRecurringUnbounded = true) :
    chooseExpand env.today c none =
      Except.ok { wall := env.today + default_future_expansion_duration, tz := none } ∧
    (∀ e : DT, e.wall ≤ env.today + maximum_future_expansion_duration →
      chooseExpand env.today c (some e) = Except.ok e) ∧
    (∀ e : DT, e.wall = env.today + maximum_future_expansion_duration →
      chooseExpand env.today c (some e) = Except.ok e) ∧
    (∀ e : DT, e.wall > env.today + maximum_future_expansion_duration →
      chooseExpand env.today c (some e) = Except.error UErr.indexedSearch) ∧
    (∀ migrating calendarRID name eu reCreate inserting resourceID db,
      chooseExpand env.today c eu = Except.error UErr.indexedSearch →
      updateDatabase env migrating calendarRID name c eu reCreate inserting
          resourceID db =
        Except.error UErr.indexedSearch) := by
  refine ⟨?_, ?_, ?_, ?_, ?_⟩
  · rw [chooseExpand_recurring env.today c none hM hR]
    have hlt : ¬ (env.today + default_future_expansion_duration >
        env.today + maximum_future_expansion_duration) := by
      unfold default_future_expansion_duration maximum_future_expansion_duration
      omega
    simp [hlt]
  · intro e he
    rw [chooseExpand_recurring env.today c (some e) hM hR]
    simp
    omega
  · intro e he
    rw [chooseExpand_recurring env.today c (some e) hM hR]
    simp
    omega
  · intro e he
    rw [chooseExpand_recurring env.today c (some e) hM hR]
    simp
    omega
  · intro migrating calendarRID name eu reCreate inserting resourceID db hE
    simp [updateDatabase, hE]

/-- C6: for every component with no master definition, or that is neither
recurring nor unboundedly recurring, the chosen expansion horizon is the
fixed far-future instant regardless of any caller-supplied override, and
`updateDatabase` can never fail with the indexing-horizon-exceeded
error. -/
theorem c6_nonrecurring_far_future (c : Component)
    (h : c.hasMaster = false ∨
      (c.isRecurring = false ∧ c.isRecurringUnbounded = false)) :
    (∀ (today : Int) (eu : Option DT),
      chooseExpand today c eu = Except.ok farFuture2100) ∧
    (∀ (env : Env) (migrating : Bool) (calendarRID : Nat) (name : String)
        (eu : Option DT) (reCreate inserting : Bool) (resourceID : Nat)
        (db : DB),
      updateDatabase env migrating calendarRID name c eu reCreate inserting
          resourceID db ≠
        Except.error UErr.indexedSearch) := by
  have hc : ∀ (today : Int) (eu : Option DT),
      chooseExpand today c eu = Except.ok farFuture2100 := by
    intro today eu
    rcases h with h | ⟨h1, h2⟩
    · simp [chooseExpand, h]
    · simp [chooseExpand, h1, h2]
  refine ⟨hc, ?_⟩
  intro env migrating calendarRID name eu reCreate inserting resourceID db
  cases hcat : expandCatch migrating c farFuture2100 reCreate with
  | ok il => simp [updateDatabase, hc env.today eu, hcat]
  | error er =>
    have her := expandCatch_ne_indexedSearch migrating c farFuture2100
      reCreate er hcat
    simp [updateDatabase, hc env.today eu, hcat, her]

/-- C2 witness: with the sample recurring component and environment, the
horizon of exactly today plus five years is accepted and one day beyond
is rejected. -/
theorem c2_horizon_policy_witness :
    chooseExpand wEnv.today wCompU
        (some { wall := wEnv.today + maximum_future_expansion_duration, tz := none }) =
      Except.ok { wall := wEnv.today + maximum_future_expansion_duration, tz := none } ∧
    chooseExpand wEnv.today wCompU
        (some { wall := wEnv.today + maximum_future_expansion_duration + 86400, tz := none }) =
      Except.error UErr.indexedSearch := by
  have h := c2_horizon_policy wEnv wCompU rfl (Or.inl rfl)
  refine ⟨h.2.2.1 _ rfl, h.2.2.2.1 _ ?_⟩
  simp

/-- C6 witness: the sample non-recurring component gets the far-future
horizon even under an enormous caller override. -/
theorem c6_nonrecurring_far_future_witness :
    chooseExpand 1000 wCompN (some { wall := 99999999999999, tz := none }) =
      Except.ok farFuture2100 :=
  (c6_nonrecurring_far_future wCompN (Or.inr ⟨rfl, rfl⟩)).1 1000
    (some { wall := 99999999999999, tz := none })

/-- C5: when expansion fails with the invalid-overridden-instance error,
`updateDatabase` outside recovery mode propagates the failure (writing
nothing), and in recovery mode retries with invalid instances ignored and
proceeds with that partial result. -/
theorem c5_recovery_mode (env : Env) (calendarRID : Nat) (name : String)
    (c : Component) (eu : Option DT) (reCreate inserting : Bool)
    (resourceID : Nat) (db : DB) (e : DT)
    (hE : chooseExpand env.today c eu = Except.ok e)
    (hFail : c.expandTimeRanges e reCreate = Except.error ()) :
    updateDatabase env false calendarRID name c eu reCreate inserting
        resourceID db =
      Except.error UErr.invalidOverriddenInstance ∧
    (∀ il, c.expandTimeRanges e true = Except.ok il →
      updateDatabase env true calendarRID name c eu reCreate inserting
          resourceID db =
        Except.ok (afterExpand env calendarRID name c il inserting
          resourceID db)) := by
  constructor
  · simp [updateDatabase, hE, expandCatch, hFail]
  · intro il hOk
    simp [updateDatabase, hE, expandCatch, hFail, hOk]

/-- C5 witness: the sample failing component propagates the error outside
recovery mode and succeeds under it. -/
theorem c5_recovery_mode_witness :
    updateDatabase wEnv false 3 "r1" wCompF none false true 0 wDb =
      Except.error UErr.invalidOverriddenInstance ∧
    updateDatabase wEnv true 3 "r1" wCompF none false true 0 wDb =
      Except.ok (afterExpand wEnv 3 "r1" wCompF
        { instances := [wInst], limit := none } true 0 wDb) := by
  have h := c5_recovery_mode wEnv 3 "r1" wCompF none false true 0 wDb
    { wall := wEnv.today + default_future_expansion_duration, tz := none }
    (by rfl) (by rfl)
  exact ⟨h.1, h.2 { instances := [wInst], limit := none } (by rfl)⟩

/-- C9: the persisted RECURRANCE_MAX of the object record equals the
normalized expansion limit when the expansion yields one and is unset
when it does not, on both insert and update. -/
theorem c9_recurrance_max (env : Env) (migrating : Bool) (calendarRID : Nat)
    (name : String) (c : Component) (eu : Option DT) (reCreate : Bool)
    (resourceID : Nat) (db : DB) (e : DT) (il : InstanceList)
    (hE : chooseExpand env.today c eu = Except.ok e)
    (hI : expandCatch migrating c e reCreate = Except.ok il) :
    (∀ db2 rid2,
      updateDatabase env migrating calendarRID name c eu reCreate true
          resourceID db =
        Except.ok (db2, rid2) →
      ∃ rec, rec ∈ db2.calendarObjects ∧ rec.resourceId = rid2 ∧
        rec.recurranceMax = il.limit.map env.normalizeForIndex) ∧
    (∀ db2 rid2,
      updateDatabase env migrating calendarRID name c eu reCreate false
          resourceID db =
        Except.ok (db2, rid2) →
      ∀ rec ∈ db2.calendarObjects, rec.resourceId = resourceID →
        rec.recurranceMax = il.limit.map env.normalizeForIndex) := by
  constructor
  · intro db2 rid2 hU
    rw [updateDatabase_ok env migrating calendarRID name c eu reCreate true
      resourceID db e il hE hI] at hU
    have hpair : afterExpand env calendarRID name c il true resourceID db =
        (db2, rid2) := by
      injection hU
    cases hu : c.isRecurringUnbounded with
    | true =>
      rw [afterExpand_insert_unbounded env calendarRID name c il resourceID
        db hu] at hpair
      have hdb2 : db2 = { db with
          nextId := db.nextId + 1 + il.instances.length + 1
          calendarObjects := db.calendarObjects ++
            [insertedRecord env calendarRID name c il db.nextId]
          timeRanges := db.timeRanges ++
            instanceRows calendarRID db.nextId il.instances (db.nextId + 1) ++
            [sentinelRow calendarRID db.nextId (db.nextId + 1 + il.instances.length)]
          transparency := db.transparency ++
            instanceTranspRows c il.instances (db.nextId + 1) ++
            (c.perUserTransparency none).map
              (fun p => ⟨db.nextId + 1 + il.instances.length, p.1, p.2⟩) } :=
        (Prod.mk.injEq _ _ _ _ ▸ hpair).1.symm
      have hrid : rid2 = db.nextId := (Prod.mk.injEq _ _ _ _ ▸ hpair).2.symm
      refine ⟨insertedRecord env calendarRID name c il db.nextId, ?_, ?_, rfl⟩
      · rw [hdb2]; simp
      · rw [hrid]; rfl
    | false =>
      rw [afterExpand_insert_bounded env calendarRID name c il resourceID
        db hu] at hpair
      have hdb2 : db2 = { db with
          nextId := db.nextId + 1 + il.instances.length
          calendarObjects := db.calendarObjects ++
            [insertedRecord env calendarRID name c il db.nextId]
          timeRanges := db.timeRanges ++
            instanceRows calendarRID db.nextId il.instances (db.nextId + 1)
          transparency := db.transparency ++
            instanceTranspRows c il.instances (db.nextId + 1) } :=
        (Prod.mk.injEq _ _ _ _ ▸ hpair).1.symm
      have hrid : rid2 = db.nextId := (Prod.mk.injEq _ _ _ _ ▸ hpair).2.symm
      refine ⟨insertedRecord env calendarRID name c il db.nextId, ?_, ?_, rfl⟩
      · rw [hdb2]; simp
      · rw [hrid]; rfl
  · intro db2 rid2 hU rec hmem hid
    rw [updateDatabase_ok env migrating calendarRID name c eu reCreate false
      resourceID db e il hE hI] at hU
    have hpair : afterExpand env calendarRID name c il false resourceID db =
        (db2, rid2) := by
      injection hU
    have hobjs : db2.calendarObjects =
        db.calendarObjects.map (updatedRecord env c il resourceID) := by
      cases hu : c.isRecurringUnbounded with
      | true =>
        rw [afterExpand_update_unbounded env calendarRID name c il resourceID
          db hu] at hpair
        have := (Prod.mk.injEq _ _ _ _ ▸ hpair).1.symm
        rw [this]
      | false =>
        rw [afterExpand_update_bounded env calendarRID name c il resourceID
          db hu] at hpair
        have := (Prod.mk.injEq _ _ _ _ ▸ hpair).1.symm
        rw [this]
    rw [hobjs] at hmem
    obtain ⟨r0, hr0mem, hr0⟩ := List.mem_map.mp hmem
    by_cases hcase : r0.resourceId = resourceID
    · rw [← hr0]
      simp [updatedRecord, hcase]
    · exfalso
      apply hcase
      have : rec = r0 := by
        rw [← hr0]
        simp [updatedRecord, hcase]
      rw [← hid, this]

/-- C9 witness: inserting the sample bounded component persists a record
whose RECURRANCE_MAX is the normalized expansion limit. -/
theorem c9_recurrance_max_witness :
    ∃ rec, rec ∈ wC9pair.1.calendarObjects ∧ rec.resourceId = wC9pair.2 ∧
      rec.recurranceMax = some { wall := 200, tz := none } :=
  (c9_recurrance_max wEnv false 3 "r1" wCompB none false 0 wDb
    { wall := wEnv.today + default_future_expansion_duration, tz := none }
    { instances := [wInst], limit := some { wall := 200, tz := some 0 } }
    rfl rfl).1 wC9pair.1 wC9pair.2 rfl

/-- C1: for an unboundedly recurring component a successful
`updateDatabase` appends, after the bounded-window instance rows, exactly
one sentinel TIME_RANGE row — non-floating, free-busy code UNKNOWN,
transparency true, at the far-future placeholder interval — whose
TRANSPARENCY rows are the per-user overrides obtained with no recurrence
id; a component that does not recur unboundedly gets no sentinel row, on
both insert and update. -/
theorem c1_unbounded_sentinel (env : Env) (migrating : Bool)
    (calendarRID : Nat) (name : String) (c : Component) (eu : Option DT)
    (reCreate : Bool) (resourceID : Nat) (db : DB) (e : DT)
    (il : InstanceList)
    (hE : chooseExpand env.today c eu = Except.ok e)
    (hI : expandCatch migrating c e reCreate = Except.ok il) :
    (∀ a b n, (sentinelRow a b n).floating = false ∧
      icalfbtype_to_indexfbtype "UNKNOWN" = some (sentinelRow a b n).fbtype ∧
      (sentinelRow a b n).transparent = true ∧
      (sentinelRow a b n).startDate = farFuture2100 ∧
      (sentinelRow a b n).endDate = sentinelEnd2100) ∧
    (c.isRecurringUnbounded = true →
      (∀ db2 rid,
        updateDatabase env migrating calendarRID name c eu reCreate true
            resourceID db =
          Except.ok (db2, rid) →
        db2.timeRanges = db.timeRanges ++
          instanceRows calendarRID rid il.instances (db.nextId + 1) ++
          [sentinelRow calendarRID rid (db.nextId + 1 + il.instances.length)] ∧
        db2.transparency = db.transparency ++
          instanceTranspRows c il.instances (db.nextId + 1) ++
          (c.perUserTransparency none).map
            (fun p => ⟨db.nextId + 1 + il.instances.length, p.1, p.2⟩)) ∧
      (∀ db2 rid,
        updateDatabase env migrating calendarRID name c eu reCreate false
            resourceID db =
          Except.ok (db2, rid) →
        db2.timeRanges = remainingTimeRanges resourceID db ++
          instanceRows calendarRID resourceID il.instances db.nextId ++
          [sentinelRow calendarRID resourceID (db.nextId + il.instances.length)] ∧
        db2.transparency = remainingTransparency resourceID db ++
          instanceTranspRows c il.instances db.nextId ++
          (c.perUserTransparency none).map
            (fun p => ⟨db.nextId + il.instances.length, p.1, p.2⟩))) ∧
    (c.isRecurringUnbounded = false →
      (∀ db2 rid,
        updateDatabase env migrating calendarRID name c eu reCreate true
            resourceID db =
          Except.ok (db2, rid) →
        db2.timeRanges = db.timeRanges ++
          instanceRows calendarRID rid il.instances (db.nextId + 1) ∧
        db2.transparency = db.transparency ++
          instanceTranspRows c il.instances (db.nextId + 1)) ∧
      (∀ db2 rid,
        updateDatabase env migrating calendarRID name c eu reCreate false
            resourceID db =
          Except.ok (db2, rid) →
        db2.timeRanges = remainingTimeRanges resourceID db ++
          instanceRows calendarRID resourceID il.instances db.nextId ∧
        db2.transparency = remainingTransparency resourceID db ++
          instanceTranspRows c il.instances db.nextId)) := by
  refine ⟨?_, ?_, ?_⟩
  · intro a b n
    refine ⟨rfl, rfl, rfl, rfl, rfl⟩
  · intro hu
    constructor
    · intro db2 rid hU
      rw [updateDatabase_ok env migrating calendarRID name c eu reCreate true
        resourceID db e il hE hI] at hU
      have hpair : afterExpand env calendarRID name c il true resourceID db =
          (db2, rid) := by
        injection hU
      rw [afterExpand_insert_unbounded env calendarRID name c il resourceID
        db hu] at hpair
      have hdb2 := (Prod.mk.injEq _ _ _ _ ▸ hpair).1
      have hrid := (Prod.mk.injEq _ _ _ _ ▸ hpair).2
      rw [← hdb2, ← hrid]
      exact ⟨rfl, rfl⟩
    · intro db2 rid hU
      rw [updateDatabase_ok env migrating calendarRID name c eu reCreate false
        resourceID db e il hE hI] at hU
      have hpair : afterExpand env calendarRID name c il false resourceID db =
          (db2, rid) := by
        injection hU
      rw [afterExpand_update_unbounded env calendarRID name c il resourceID
        db hu] at hpair
      have hdb2 := (Prod.mk.injEq _ _ _ _ ▸ hpair).1
      rw [← hdb2]
      exact ⟨rfl, rfl⟩
  · intro hu
    constructor
    · intro db2 rid hU
      rw [updateDatabase_ok env migrating calendarRID name c eu reCreate true
        resourceID db e il hE hI] at hU
      have hpair : afterExpand env calendarRID name c il true resourceID db =
          (db2, rid) := by
        injection hU
      rw [afterExpand_insert_bounded env calendarRID name c il resourceID
        db hu] at hpair
      have hdb2 := (Prod.mk.injEq _ _ _ _ ▸ hpair).1
      have hrid := (Prod.mk.injEq _ _ _ _ ▸ hpair).2
      rw [← hdb2, ← hrid]
      exact ⟨rfl, rfl⟩
    · intro db2 rid hU
      rw [updateDatabase_ok env migrating calendarRID name c eu reCreate false
        resourceID db e il hE hI] at hU
      have hpair : afterExpand env calendarRID name c il false resourceID db =
          (db2, rid) := by
        injection hU
      rw [afterExpand_update_bounded env calendarRID name c il resourceID
        db hu] at hpair
      have hdb2 := (Prod.mk.injEq _ _ _ _ ▸ hpair).1
      rw [← hdb2]
      exact ⟨rfl, rfl⟩

/-- C1 witness: the sample unbounded insert yields the instance row
followed by exactly one sentinel row with its transparency override. -/
theorem c1_unbounded_sentinel_witness :
    wC1pair.1.timeRanges = wDb.timeRanges ++
      instanceRows 3 wC1pair.2 [wInst] 1 ++ [sentinelRow 3 wC1pair.2 2] ∧
    wC1pair.1.transparency = wDb.transparency ++
      instanceTranspRows wCompU [wInst] 1 ++
      (wCompU.perUserTransparency none).map (fun p => ⟨2, p.1, p.2⟩) :=
  ((c1_unbounded_sentinel wEnv false 3 "r1" wCompU none false 0 wDb
    { wall := wEnv.today + default_future_expansion_duration, tz := none }
    { instances := [wInst], limit := none }
    rfl rfl).2.1 rfl).1 wC1pair.1 wC1pair.2 rfl

/-- Attaching UTC to a time point that is already UTC changes nothing. -/
theorem DT.replaceUtc_of_utc (d : DT) (h : d.tz = some 0) :
    d.replaceUtc = d := by
  cases d
  simp_all [DT.replaceUtc]

/-- C7: each instance returned by expansion is stored with start and end
carried to UTC (unchanged when already UTC; wall-clock preserved and the
floating flag raised when no time zone is attached), the free-busy code
taken from the mapping with unrecognized types falling back to the FREE
code, the transparency flag derived from the TRANSP property, and the
per-user transparency overrides collected at the instance's recurrence
id. -/
theorem c7_instance_row_fields (c : Component) (calendarRID resourceID : Nat)
    (i : VInstance) (db : DB) :
    ∃ row, (writeOne c calendarRID resourceID i db).timeRanges =
        db.timeRanges ++ [row] ∧
      (row.floating = true ↔ i.start.tz = none) ∧
      (i.start.tz = some 0 → row.startDate = i.start) ∧
      (i.end_.tz = some 0 → row.endDate = i.end_) ∧
      row.startDate.wall = i.start.wall ∧
      row.endDate.wall = i.end_.wall ∧
      row.startDate.tz = some 0 ∧
      row.endDate.tz = some 0 ∧
      row.fbtype = (icalfbtype_to_indexfbtype i.getFBType).getD 1 ∧
      (icalfbtype_to_indexfbtype i.getFBType = none → row.fbtype = 1) ∧
      (row.transparent = true ↔ i.transpValue = some "TRANSPARENT") ∧
      (writeOne c calendarRID resourceID i db).transparency =
        db.transparency ++ (c.perUserTransparency i.rid).map
          (fun p => ⟨db.nextId, p.1, p.2⟩) := by
  refine ⟨mkTimeRangeRow calendarRID resourceID db.nextId i,
    ?_, ?_, ?_, ?_, ?_, ?_, ?_, ?_, ?_, ?_, ?_, ?_⟩
  · simp [writeOne_spec]
  · simp [mkTimeRangeRow, Option.isNone_iff_eq_none]
  · intro h
    simp [mkTimeRangeRow, DT.replaceUtc_of_utc i.start h]
  · intro h
    simp [mkTimeRangeRow, DT.replaceUtc_of_utc i.end_ h]
  · rfl
  · rfl
  · rfl
  · rfl
  · have hfree : (icalfbtype_to_indexfbtype "FREE").getD 0 = 1 := by decide
    simp [mkTimeRangeRow, hfree]
  · intro h
    simp [mkTimeRangeRow, h]
    decide
  · simp [mkTimeRangeRow]
  · simp [writeOne_spec]

/-- C7 witness: the sample UTC instance is stored unchanged with its BUSY
code and opaque transparency. -/
theorem c7_instance_row_fields_witness :
    ∃ row, (writeOne wCompU 3 0 wInst wDb).timeRanges =
        wDb.timeRanges ++ [row] ∧
      (row.floating = true ↔ wInst.start.tz = none) ∧
      (wInst.start.tz = some 0 → row.startDate = wInst.start) ∧
      (wInst.end_.tz = some 0 → row.endDate = wInst.end_) ∧
      row.startDate.wall = wInst.start.wall ∧
      row.endDate.wall = wInst.end_.wall ∧
      row.startDate.tz = some 0 ∧
      row.endDate.tz = some 0 ∧
      row.fbtype = (icalfbtype_to_indexfbtype wInst.getFBType).getD 1 ∧
      (icalfbtype_to_indexfbtype wInst.getFBType = none → row.fbtype = 1) ∧
      (row.transparent = true ↔ wInst.transpValue = some "TRANSPARENT") ∧
      (writeOne wCompU 3 0 wInst wDb).transparency =
        wDb.transparency ++ (wCompU.perUserTransparency wInst.rid).map
          (fun p => ⟨wDb.nextId, p.1, p.2⟩) :=
  c7_instance_row_fields wCompU 3 0 wInst wDb

/-- Rows produced by the per-instance loop all belong to the object. -/
theorem instanceRows_mem_objId (a b : Nat) (l : List VInstance) (n : Nat) :
    ∀ r ∈ instanceRows a b l n, r.calendarObjectResourceId = b := by
  induction l generalizing n with
  | nil => intro r hr; simp [instanceRows] at hr
  | cons i rest ih =>
    intro r hr
    simp only [instanceRows, List.mem_cons] at hr
    rcases hr with h | h
    · rw [h]; rfl
    · exact ih (n + 1) r h

/-- Filtering the loop's rows for the object keeps them all. -/
theorem filter_objId_instanceRows (a b : Nat) (l : List VInstance) (n : Nat) :
    (instanceRows a b l n).filter
      (fun r => r.calendarObjectResourceId == b) = instanceRows a b l n := by
  apply List.filter_eq_self.mpr
  intro r hr
  simp [instanceRows_mem_objId a b l n r hr]

/-- Filtering the loop's rows away from the object removes them all. -/
theorem filter_not_objId_instanceRows (a b : Nat) (l : List VInstance)
    (n : Nat) :
    (instanceRows a b l n).filter
      (fun r => !(r.calendarObjectResourceId == b)) = [] := by
  apply List.filter_eq_nil_iff.mpr
  intro r hr
  simp [instanceRows_mem_objId a b l n r hr]

/-- Identifier-erased shapes of the loop's rows do not depend on the
identifier counter. -/
theorem instanceRows_shape (a b : Nat) (l : List VInstance) (n m : Nat) :
    (instanceRows a b l n).map timeRangeShape =
      (instanceRows a b l m).map timeRangeShape := by
  induction l generalizing n m with
  | nil => rfl
  | cons i rest ih =>
    simp only [instanceRows, List.map_cons]
    exact congrArg₂ _ rfl (ih (n + 1) (m + 1))

/-- After the wipe of one object's rows, no TIME_RANGE row of that object
remains. -/
theorem objectTimeRanges_delete (resourceID : Nat) (db : DB) :
    objectTimeRanges (deleteTimeRanges resourceID db) resourceID = [] := by
  simp only [objectTimeRanges, deleteTimeRanges]
  apply List.filter_eq_nil_iff.mpr
  intro r hr
  have hmem := List.of_mem_filter hr
  simp at hmem ⊢
  exact hmem

/-- C3: an update whose component content is identical to the prior
insert wipes every TIME_RANGE row of the object and rebuilds a set of
rows identical, ignoring row identifiers, to the set the insert
produced. -/
theorem c3_update_rebuild_idempotent (env : Env) (migrating : Bool)
    (calendarRID : Nat) (name : String) (c : Component) (eu : Option DT)
    (reCreate : Bool) (resourceID0 : Nat) (db : DB) (e : DT)
    (il : InstanceList) (db1 db2 : DB) (rid rid2 : Nat)
    (hWF : ∀ r ∈ db.timeRanges, r.calendarObjectResourceId ≠ db.nextId)
    (hE : chooseExpand env.today c eu = Except.ok e)
    (hI : expandCatch migrating c e reCreate = Except.ok il)
    (hIns : updateDatabase env migrating calendarRID name c eu reCreate true
        resourceID0 db = Except.ok (db1, rid))
    (hUpd : updateDatabase env migrating calendarRID name c eu reCreate false
        rid db1 = Except.ok (db2, rid2)) :
    rid2 = rid ∧
    objectTimeRanges (deleteTimeRanges rid db1) rid = [] ∧
    (objectTimeRanges db2 rid).map timeRangeShape =
      (objectTimeRanges db1 rid).map timeRangeShape := by
  rw [updateDatabase_ok env migrating calendarRID name c eu reCreate true
    resourceID0 db e il hE hI] at hIns
  rw [updateDatabase_ok env migrating calendarRID name c eu reCreate false
    rid db1 e il hE hI] at hUpd
  have hpair1 : afterExpand env calendarRID name c il true resourceID0 db =
      (db1, rid) := by
    injection hIns
  have hpair2 : afterExpand env calendarRID name c il false rid db1 =
      (db2, rid2) := by
    injection hUpd
  have hfilterdb : db.timeRanges.filter
      (fun r => r.calendarObjectResourceId == db.nextId) = [] := by
    apply List.filter_eq_nil_iff.mpr
    intro r hr
    simp [hWF r hr]
  have hfilterdb2 : db.timeRanges.filter
      (fun r => !(r.calendarObjectResourceId == db.nextId)) =
        db.timeRanges := by
    apply List.filter_eq_self.mpr
    intro r hr
    simp [hWF r hr]
  cases hu : c.isRecurringUnbounded with
  | true =>
    rw [afterExpand_insert_unbounded env calendarRID name c il resourceID0
      db hu] at hpair1
    have hdb1 := (Prod.mk.injEq _ _ _ _ ▸ hpair1).1
    have hrid := (Prod.mk.injEq _ _ _ _ ▸ hpair1).2
    rw [afterExpand_update_unbounded env calendarRID name c il rid db1
      hu] at hpair2
    have hdb2 := (Prod.mk.injEq _ _ _ _ ▸ hpair2).1
    have hrid2 := (Prod.mk.injEq _ _ _ _ ▸ hpair2).2
    subst hrid
    have htr1 : db1.timeRanges = db.timeRanges ++
        instanceRows calendarRID db.nextId il.instances (db.nextId + 1) ++
        [sentinelRow calendarRID db.nextId (db.nextId + 1 + il.instances.length)] := by
      rw [← hdb1]
    have htr2 : db2.timeRanges = db1.timeRanges.filter
        (fun r => !(r.calendarObjectResourceId == db.nextId)) ++
        instanceRows calendarRID db.nextId il.instances db1.nextId ++
        [sentinelRow calendarRID db.nextId (db1.nextId + il.instances.length)] := by
      rw [← hdb2]
    have hwipe : db1.timeRanges.filter
        (fun r => !(r.calendarObjectResourceId == db.nextId)) =
          db.timeRanges := by
      rw [htr1]
      simp only [List.filter_append, hfilterdb2,
        filter_not_objId_instanceRows, List.append_nil]
      simp [sentinelRow]
    have hsent1 : List.filter
        (fun r => r.calendarObjectResourceId == db.nextId)
        [sentinelRow calendarRID db.nextId (db1.nextId + il.instances.length)] =
        [sentinelRow calendarRID db.nextId (db1.nextId + il.instances.length)] := by
      simp [sentinelRow]
    have hsent2 : List.filter
        (fun r => r.calendarObjectResourceId == db.nextId)
        [sentinelRow calendarRID db.nextId (db.nextId + 1 + il.instances.length)] =
        [sentinelRow calendarRID db.nextId (db.nextId + 1 + il.instances.length)] := by
      simp [sentinelRow]
    refine ⟨hrid2.symm, objectTimeRanges_delete db.nextId db1, ?_⟩
    simp only [objectTimeRanges]
    rw [htr2, hwipe, htr1]
    simp only [List.filter_append, hfilterdb, filter_objId_instanceRows,
      List.nil_append, hsent1, hsent2, List.map_append]
    rw [instanceRows_shape calendarRID db.nextId il.instances
      db1.nextId (db.nextId + 1)]
    rfl
  | false =>
    rw [afterExpand_insert_bounded env calendarRID name c il resourceID0
      db hu] at hpair1
    have hdb1 := (Prod.mk.injEq _ _ _ _ ▸ hpair1).1
    have hrid := (Prod.mk.injEq _ _ _ _ ▸ hpair1).2
    rw [afterExpand_update_bounded env calendarRID name c il rid db1
      hu] at hpair2
    have hdb2 := (Prod.mk.injEq _ _ _ _ ▸ hpair2).1
    have hrid2 := (Prod.mk.injEq _ _ _ _ ▸ hpair2).2
    subst hrid
    have htr1 : db1.timeRanges = db.timeRanges ++
        instanceRows calendarRID db.nextId il.instances (db.nextId + 1) := by
      rw [← hdb1]
    have htr2 : db2.timeRanges = db1.timeRanges.filter
        (fun r => !(r.calendarObjectResourceId == db.nextId)) ++
        instanceRows calendarRID db.nextId il.instances db1.nextId := by
      rw [← hdb2]
    have hwipe : db1.timeRanges.filter
        (fun r => !(r.calendarObjectResourceId == db.nextId)) =
          db.timeRanges := by
      rw [htr1]
      simp only [List.filter_append, hfilterdb2,
        filter_not_objId_instanceRows, List.append_nil]
    refine ⟨hrid2.symm, objectTimeRanges_delete db.nextId db1, ?_⟩
    simp only [objectTimeRanges]
    rw [htr2, hwipe, htr1]
    simp only [List.filter_append, hfilterdb, filter_objId_instanceRows,
      List.nil_append]
    exact instanceRows_shape calendarRID db.nextId il.instances
      db1.nextId (db.nextId + 1)

/-- C3 witness: re-running the sample bounded insert as an update yields
the same resource id, an empty object row set after the wipe, and
identifier-erased rows equal to the insert's. -/
theorem c3_update_rebuild_idempotent_witness :
    wC3pair.2 = wC9pair.2 ∧
    objectTimeRanges (deleteTimeRanges wC9pair.2 wC9pair.1) wC9pair.2 = [] ∧
    (objectTimeRanges wC3pair.1 wC9pair.2).map timeRangeShape =
      (objectTimeRanges wC9pair.1 wC9pair.2).map timeRangeShape :=
  c3_update_rebuild_idempotent wEnv false 3 "r1" wCompB none false 0 wDb
    { wall := wEnv.today + default_future_expansion_duration, tz := none }
    { instances := [wInst], limit := some { wall := 200, tz := some 0 } }
    wC9pair.1 wC3pair.1 wC9pair.2 wC3pair.2
    (by intro r hr; simp [wDb] at hr) rfl rfl rfl rfl

/-- C10: metadata lookup and the close-time metadata update key on the
PATH column alone, with no owning-object identifier: whichever calendar
object they are invoked on, they resolve to the same rows — the lookup
returns the first row of the requested path even when it belongs to the
other object, and the close-time update rewrites every row of that path
across owners — while `removeAttachmentWithName` additionally keys on the
owning object id and deletes only that object's row. -/
theorem c10_attachment_path_keying (env : Env) :
    (∀ (db : DB) (rid1 rid2 : Nat) (name : String),
      attachmentWithName env rid1 db name =
        attachmentWithName env rid2 db name) ∧
    (∀ (rid2 : Nat) (name : String) (r1 r2 : AttachmentRow),
      r1.path = name →
      attachmentWithName env rid2 (dbWithAttachments [r1, r2]) name =
        some (populateRow env r1)) ∧
    (∀ (attachmentsRoot homeName uid : String)
        (t : AttachmentStorageTransport) (fs : FS) (r1 r2 : AttachmentRow),
      r1.path = t.attachmentName → r2.path = t.attachmentName →
      (loseConnection env attachmentsRoot homeName uid t
          { db := dbWithAttachments [r1, r2], fs := fs }).db.attachments =
        [{ r1 with
            contentType := env.genContentType t.contentType
            size := t.buf.length
            md5 := env.md5hex t.hashFed
            modified := env.nowText },
         { r2 with
            contentType := env.genContentType t.contentType
            size := t.buf.length
            md5 := env.md5hex t.hashFed
            modified := env.nowText }]) ∧
    (∀ (rid : Nat) (name : String) (r1 r2 : AttachmentRow),
      r1.calendarObjectResourceId ≠ rid →
      r2.calendarObjectResourceId = rid →
      r1.path = name → r2.path = name →
      (removeAttachmentWithName rid name
          (dbWithAttachments [r1, r2])).attachments = [r1]) := by
  refine ⟨?_, ?_, ?_, ?_⟩
  · intro db rid1 rid2 name
    rfl
  · intro rid2 name r1 r2 h1
    simp [attachmentWithName, dbWithAttachments, h1]
  · intro attachmentsRoot homeName uid t fs r1 r2 h1 h2
    simp [loseConnection, dbWithAttachments, closeUpd, h1, h2]
  · intro rid name r1 r2 ho1 ho2 h1 h2
    simp [removeAttachmentWithName, dbWithAttachments, h1, h2, ho1, ho2]

/-- C10 witness: with two same-named attachments owned by objects 1 and 2,
the lookup through object 2 yields object 1's row, closing through either
rewrites both rows, and removal through object 2 keeps object 1's row. -/
theorem c10_attachment_path_keying_witness :
    attachmentWithName wEnv 2
        (dbWithAttachments
          [{ calendarObjectResourceId := 1, contentType := "a", size := 1
           , md5 := "x", path := "n", created := "c", modified := "m" },
           { calendarObjectResourceId := 2, contentType := "b", size := 2
           , md5 := "y", path := "n", created := "c", modified := "m" }]) "n" =
      some (populateRow wEnv
        { calendarObjectResourceId := 1, contentType := "a", size := 1
        , md5 := "x", path := "n", created := "c", modified := "m" }) ∧
    (removeAttachmentWithName 2 "n"
        (dbWithAttachments
          [{ calendarObjectResourceId := 1, contentType := "a", size := 1
           , md5 := "x", path := "n", created := "c", modified := "m" },
           { calendarObjectResourceId := 2, contentType := "b", size := 2
           , md5 := "y", path := "n", created := "c", modified := "m" }])).attachments =
      [{ calendarObjectResourceId := 1, contentType := "a", size := 1
       , md5 := "x", path := "n", created := "c", modified := "m" }] :=
  ⟨(c10_attachment_path_keying wEnv).2.1 2 "n" _ _ rfl,
   (c10_attachment_path_keying wEnv).2.2.2 2 "n" _ _
     (by decide) rfl rfl rfl⟩

/-- C4 counterexample: a sink handed out by `createAttachmentWithName`
that is never closed has already left a metadata row behind, and the
lookup sees it instead of returning the not-found result. -/
theorem c4_counterexample :
    (createAttachmentWithName wEnv 7 "a.txt" "text/plain" wStore).1.db.attachments.filter
        (fun r => r.path == "a.txt") ≠ [] ∧
    attachmentWithName wEnv 7
        (createAttachmentWithName wEnv 7 "a.txt" "text/plain" wStore).1.db
        "a.txt" ≠ none := by
  constructor
  · decide
  · decide

/-- C4 amended: `createAttachmentWithName` inserts the metadata row
immediately — size zero and empty digest, before any write or close, so
an unclosed sink leaves a zeroed row rather than none — while
`attachmentWithName` returns the not-found result exactly when no row
carries the requested path, never a partial record for an absent one. -/
theorem c4_attachment_metadata_visibility (env : Env) (resourceID : Nat)
    (name contentType : String) (s : Store) :
    (createAttachmentWithName env resourceID name contentType s).1.db.attachments =
      s.db.attachments ++
        [{ calendarObjectResourceId := resourceID
         , contentType := env.genContentType contentType
         , size := 0
         , md5 := ""
         , path := name
         , created := env.nowText
         , modified := env.nowText }] ∧
    (∀ db : DB, attachmentWithName env resourceID db name = none ↔
      db.attachments.filter (fun r => r.path == name) = []) := by
  constructor
  · rfl
  · intro db
    unfold attachmentWithName
    cases hf : db.attachments.filter (fun r => r.path == name) with
    | nil => simp
    | cons r rest => simp

/-- Effect of a sequence of sink writes: the buffer and the digest feed
both receive the concatenation of the chunks. -/
theorem writeChunks_spec (t : AttachmentStorageTransport)
    (chunks : List (List Nat)) :
    writeChunks t chunks =
      { t with
        buf := t.buf ++ chunks.flatten
        hashFed := t.hashFed ++ chunks.flatten } := by
  induction chunks generalizing t with
  | nil => simp [writeChunks]
  | cons d rest ih =>
    simp [writeChunks, transportWrite, ih, List.append_assoc]

/-- Reading back a path just written returns the written content. -/
theorem getContent_setContent (fs : FS) (p : List String) (b : List Nat) :
    getContent (setContent fs p b) p = some b := by
  induction fs with
  | nil => simp [setContent, getContent, List.lookup]
  | cons e rest ih =>
    cases e with
    | mk q c =>
      by_cases h : q = p
      · simp [setContent, h, getContent, List.lookup]
      · simp only [setContent, if_neg h]
        simp only [getContent, List.lookup] at ih ⊢
        have hbeq : (p == q) = false := by
          simp
          intro hpq
          exact h hpq.symm
        rw [hbeq]
        exact ih

/-- The close-time update never changes a row's PATH. -/
theorem closeUpd_path (env : Env) (t : AttachmentStorageTransport)
    (r : AttachmentRow) : (closeUpd env t r).path = r.path := by
  unfold closeUpd
  split
  · rfl
  · rfl

/-- Rows of other paths never match the requested path after the
close-time update. -/
theorem filter_map_closeUpd_fresh (env : Env) (t : AttachmentStorageTransport)
    (nm : String) (l : List AttachmentRow)
    (hfresh : ∀ r ∈ l, r.path ≠ nm) :
    (l.map (closeUpd env t)).filter (fun r => r.path == nm) = [] := by
  apply List.filter_eq_nil_iff.mpr
  intro r hr
  obtain ⟨r0, hr0, hre⟩ := List.mem_map.mp hr
  rw [← hre]
  simp [closeUpd_path, hfresh r0 hr0]

/-- C8: writing a sequence of chunks through the sink and closing it
stores exactly the concatenation of the chunks at the attachment's path,
and the metadata row then carries the byte length and the MD5 digest —
computed over exactly that concatenation — of the stored bytes. -/
theorem c8_attachment_round_trip (env : Env) (resourceID : Nat)
    (attachmentsRoot homeName uid name contentType : String)
    (s : Store) (chunks : List (List Nat))
    (hfresh : ∀ r ∈ s.db.attachments, r.path ≠ name) :
    retrieve attachmentsRoot homeName uid name
      (loseConnection env attachmentsRoot homeName uid
        (writeChunks
          (createAttachmentWithName env resourceID name contentType s).2 chunks)
        (createAttachmentWithName env resourceID name contentType s).1) =
      some chunks.flatten ∧
    attachmentWithName env resourceID
      (loseConnection env attachmentsRoot homeName uid
        (writeChunks
          (createAttachmentWithName env resourceID name contentType s).2 chunks)
        (createAttachmentWithName env resourceID name contentType s).1).db
      name =
      some { contentType := env.genContentType contentType
           , size := chunks.flatten.length
           , md5 := env.md5hex chunks.flatten
           , created := env.parseTimestamp env.nowText
           , modified := env.parseTimestamp env.nowText } := by
  have ht : writeChunks
      (createAttachmentWithName env resourceID name contentType s).2 chunks =
      { attachmentName := name, contentType := contentType
      , buf := chunks.flatten, hashFed := chunks.flatten } := by
    rw [writeChunks_spec]
    rfl
  rw [ht]
  constructor
  · simp [retrieve, loseConnection, getContent_setContent]
  · have hrow : (loseConnection env attachmentsRoot homeName uid
        { attachmentName := name, contentType := contentType
        , buf := chunks.flatten, hashFed := chunks.flatten }
        (createAttachmentWithName env resourceID name contentType s).1).db.attachments =
        (s.db.attachments.map (closeUpd env
          { attachmentName := name, contentType := contentType
          , buf := chunks.flatten, hashFed := chunks.flatten })) ++
        [closeUpd env
          { attachmentName := name, contentType := contentType
          , buf := chunks.flatten, hashFed := chunks.flatten }
          { calendarObjectResourceId := resourceID
          , contentType := env.genContentType contentType
          , size := 0, md5 := "", path := name
          , created := env.nowText, modified := env.nowText }] := by
      simp [loseConnection, createAttachmentWithName]
    unfold attachmentWithName
    rw [hrow, List.filter_append,
      filter_map_closeUpd_fresh env _ name s.db.attachments hfresh]
    simp [closeUpd, populateRow]

/-- C8 witness: writing the chunks [1, 2] and [3] and closing stores
[1, 2, 3] and records its length and digest. -/
theorem c8_attachment_round_trip_witness :
    retrieve "root" "ownerhome" "uid1" "a.txt"
      (loseConnection wEnv "root" "ownerhome" "uid1"
        (writeChunks
          (createAttachmentWithName wEnv 7 "a.txt" "text/plain" wStore).2
          [[1, 2], [3]])
        (createAttachmentWithName wEnv 7 "a.txt" "text/plain" wStore).1) =
      some [1, 2, 3] ∧
    attachmentWithName wEnv 7
      (loseConnection wEnv "root" "ownerhome" "uid1"
        (writeChunks
          (createAttachmentWithName wEnv 7 "a.txt" "text/plain" wStore).2
          [[1, 2], [3]])
        (createAttachmentWithName wEnv 7 "a.txt" "text/plain" wStore).1).db
      "a.txt" =
      some { contentType := "text/plain", size := 3
           , md5 := wEnv.md5hex [1, 2, 3], created := 77, modified := 77 } :=
  c8_attachment_round_trip wEnv 7 "root" "ownerhome" "uid1" "a.txt"
    "text/plain" wStore [[1, 2], [3]]
    (by intro r hr; simp [wStore, wDb] at hr)

end CalDAV
